import Mathlib

/-!
Verification of the nyct-gtfs trip-correlation and filtering core.

The definitions below are a shallow embedding of the Python sources:
`nyct_gtfs/feed.py`, `nyct_gtfs/trip.py`, `nyct_gtfs/stop_time_update.py`,
`nyct_gtfs/time_utilities.py` and `nyct_gtfs/cpp_parser_wrapper.py`.
Instants (`datetime.datetime`, POSIX timestamps) are modelled as `Int`
seconds; `datetime.fromtimestamp` is order-preserving, so comparisons and
`timedelta` arithmetic on datetimes map to `Int` comparisons and addition.
Python exceptions are modelled with `Except PyErr`; an expected absent
value (`None` returned on purpose) is `Option.none`, never an error.
-/

set_option autoImplicit false

deriving instance DecidableEq for Except

namespace NyctGtfs

/-- Python exception kinds raised by the embedded code. -/
inductive PyErr where
  | indexError
  | valueError
  | typeError
  | attributeError
  deriving DecidableEq, Repr

/-- Python `l[i]` for a literal non-negative index: `IndexError` when out of range. -/
def pyIndex {α : Type} (l : List α) (i : Nat) : Except PyErr α :=
  match l.get? i with
  | some x => Except.ok x
  | none => Except.error PyErr.indexError

/-- Python list indexing with an `int` index: negative indices count from the
end (`l[i]` is `l[len l + i]` for `i < 0`); anything out of `[-len, len)` is absent
(the list access raises `IndexError`). -/
def pyListGet {α : Type} (l : List α) (i : Int) : Option α :=
  if 0 ≤ i then l.get? i.toNat
  else if (l.length : Int) + i < 0 then none
  else l.get? ((l.length : Int) + i).toNat

/-- Python `s[0]` on a string: the first character as a 1-character string,
`IndexError` on the empty string. -/
def pyStrHead (s : String) : Except PyErr String :=
  match s.data with
  | [] => Except.error PyErr.indexError
  | c :: _ => Except.ok (String.mk [c])

/-- If `sep` is a prefix of `s`, the remainder of `s` after it. -/
def stripPrefixCh : List Char → List Char → Option (List Char)
  | [], s => some s
  | _ :: _, [] => none
  | p :: ps, c :: cs => if p = c then stripPrefixCh ps cs else none

/-- Python `sep in s` (substring occurrence) over character lists. -/
def hasSubstr (pat : List Char) : List Char → Bool
  | [] => (stripPrefixCh pat []).isSome
  | c :: rest => (stripPrefixCh pat (c :: rest)).isSome || hasSubstr pat rest

/-- Python `sep in s` on strings. -/
def strContains (s pat : String) : Bool :=
  hasSubstr pat.data s.data

/-- Worker for `strSplitOn`; `fuel` dominates the length of `s` so the
recursion is structural. `cur` is the current piece, reversed. -/
def pySplitAux (sep : List Char) : Nat → List Char → List Char → List (List Char)
  | _, cur, [] => [cur.reverse]
  | 0, cur, s => [cur.reverse ++ s]
  | fuel + 1, cur, c :: rest =>
    match stripPrefixCh sep (c :: rest) with
    | some remainder => cur.reverse :: pySplitAux sep fuel [] remainder
    | none => pySplitAux sep fuel (c :: cur) rest

/-- Python `s.split(sep)` for a non-empty separator. -/
def strSplitOn (s sep : String) : List String :=
  (pySplitAux sep.data s.data.length [] s.data).map String.mk

/-- Python `s[-n:]`: the last `n` characters (the whole string when shorter). -/
def strTakeRight (s : String) (n : Nat) : String :=
  String.mk ((s.data.reverse.take n).reverse)

/-! ## Data model: the decoded GTFS-realtime messages

These mirror the protobuf messages the Python code reads: the NYCT trip
descriptor (with its vendor-extension fields `train_id` and `is_assigned`
inlined), stop-time records with the NYCT track extension, the three
entity payloads, and the feed envelope with its header timestamp. -/

structure NyctTripDescriptor where
  trip_id : String
  route_id : String
  train_id : String
  is_assigned : Bool
  deriving DecidableEq, Repr

/-- The NYCT extension carried by a stop-time record; each track field is
independently optional (`HasField` in the source). -/
structure NyctStopTimeExt where
  scheduled_track : Option String
  actual_track : Option String
  deriving DecidableEq, Repr

structure StopTimeUpdateMsg where
  stop_id : String
  arrival : Option Int
  departure : Option Int
  nyct_ext : NyctStopTimeExt
  deriving DecidableEq, Repr

structure TripUpdateMsg where
  trip : NyctTripDescriptor
  stop_time_update : List StopTimeUpdateMsg
  deriving DecidableEq, Repr

structure VehicleUpdateMsg where
  trip : NyctTripDescriptor
  timestamp : Int
  stop_id : String
  current_stop_sequence : Nat
  deriving DecidableEq, Repr

/-- An alert; `informed_entity` holds the trip descriptor of each informed
entity selector. -/
structure AlertMsg where
  informed_entity : List NyctTripDescriptor
  deriving DecidableEq, Repr

/-- One feed entity. The Python code probes `HasField` for the three payloads
in the order `trip_update`, `vehicle`, `alert`. -/
structure FeedEntity where
  trip_update : Option TripUpdateMsg
  vehicle : Option VehicleUpdateMsg
  alert : Option AlertMsg
  deriving DecidableEq, Repr

/-- The decoded feed: header timestamp (`last_generated`) and entity list. -/
structure FeedMessage where
  timestamp : Int
  entity : List FeedEntity
  deriving DecidableEq, Repr

/-! ## time_utilities.parse_timestamp -/

/-- `time_utilities.parse_timestamp`: the one-hour correction heuristic.
`timedelta(minutes=30)` is 1800 s and `timedelta(minutes=60)` is 3600 s. -/
def parse_timestamp (timestamp : Int) (feed_datetime : Option Int) : Int :=
  match feed_datetime with
  | none => timestamp
  | some fd => if timestamp > fd + 1800 then timestamp - 3600 else timestamp

/-! ## Trip (trip.py) -/

/-- The `Trip` wrapper built by `NYCTFeed.trips`: the progress update, the
optional position update, the correlated alerts, and the feed's generation
time (`feed_datetime`). -/
structure Trip where
  trip_update : TripUpdateMsg
  vehicle_update : Option VehicleUpdateMsg
  applicable_alerts : List AlertMsg
  feed_datetime : Int
  deriving DecidableEq, Repr

def Trip.trip_id (t : Trip) : String :=
  t.trip_update.trip.trip_id

def Trip.route_id (t : Trip) : String :=
  t.trip_update.trip.route_id

def Trip.train_assigned (t : Trip) : Bool :=
  t.trip_update.trip.is_assigned

/-- `Trip.underway`: a vehicle update must be present and its timestamp must
not be more than one minute (`timedelta(minutes=1)` = 60 s) past the feed's
generation time. -/
def Trip.underway (t : Trip) : Bool :=
  match t.vehicle_update with
  | none => false
  | some v => decide (v.timestamp ≤ t.feed_datetime + 60)

/-- `Trip.last_position_update`: `None` unless underway, otherwise the raw
decoded vehicle timestamp. -/
def Trip.last_position_update (t : Trip) : Option Int :=
  if t.underway then t.vehicle_update.map (fun v => v.timestamp) else none

def Trip.stop_time_updates (t : Trip) : List StopTimeUpdateMsg :=
  t.trip_update.stop_time_update

/-- `Trip.headed_to_stop`: membership of the stop id among the remaining
stop-time records. -/
def Trip.headed_to_stop (t : Trip) (stop : String) : Bool :=
  (t.stop_time_updates.map StopTimeUpdateMsg.stop_id).contains stop

/-- `Trip.shape_id`: `trip_id.split('_')[1]` (an `IndexError` when there is
no underscore). -/
def Trip.shape_id (t : Trip) : Except PyErr String :=
  pyIndex (strSplitOn t.trip_id "_") 1

/-- `Trip.direction`: `shape_id.split('..')[1][0]` when `'..' in trip_id`,
otherwise `shape_id.split('.')[1][0]`. Both indexings can raise. -/
def Trip.direction (t : Trip) : Except PyErr String :=
  if strContains t.trip_id ".." then do
    let sh ← t.shape_id
    let seg ← pyIndex (strSplitOn sh "..") 1
    pyStrHead seg
  else do
    let sh ← t.shape_id
    let seg ← pyIndex (strSplitOn sh ".") 1
    pyStrHead seg

def Trip.has_delay_alert (t : Trip) : Bool :=
  decide (0 < t.applicable_alerts.length)

/-! ## StopTimeUpdate (stop_time_update.py) -/

namespace StopTimeUpdate

def scheduled_track (s : StopTimeUpdateMsg) : Option String :=
  s.nyct_ext.scheduled_track

def actual_track (s : StopTimeUpdateMsg) : Option String :=
  s.nyct_ext.actual_track

/-- `StopTimeUpdate.unexpected_track_arrival`: `False` when either track is
absent, otherwise `scheduled != actual`. -/
def unexpected_track_arrival (s : StopTimeUpdateMsg) : Bool :=
  match scheduled_track s, actual_track s with
  | none, _ => false
  | _, none => false
  | some a, some b => decide (a ≠ b)

end StopTimeUpdate

/-! ## Python dictionaries (insertion-ordered, in-place overwrite) -/

/-- `d[k] = v` on a Python dict: overwrite in place when the key exists
(keeping its position), append otherwise. -/
def dictInsert {κ α : Type} [DecidableEq κ] (k : κ) (v : α) : List (κ × α) → List (κ × α)
  | [] => [(k, v)]
  | (k0, v0) :: rest =>
    if k0 = k then (k0, v) :: rest else (k0, v0) :: dictInsert k v rest

/-- `d[k]` / `k in d` on a Python dict. -/
def dictGet {κ α : Type} [DecidableEq κ] (k : κ) : List (κ × α) → Option α
  | [] => none
  | (k0, v0) :: rest => if k0 = k then some v0 else dictGet k rest

/-- `d.setdefault(k, []).append(v)` as done in the alert branch of
`NYCTFeed.trips`. -/
def dictAppend {κ α : Type} [DecidableEq κ] (k : κ) (v : α) :
    List (κ × List α) → List (κ × List α)
  | [] => [(k, [v])]
  | (k0, vs) :: rest =>
    if k0 = k then (k0, vs ++ [v]) :: rest else (k0, vs) :: dictAppend k v rest

/-! ## NYCTFeed (feed.py) -/

namespace NYCTFeed

/-- `NYCTFeed._trip_identifier`: `trip_id + " " + train_id[-7:]`. -/
def trip_identifier (trip : NyctTripDescriptor) : String :=
  trip.trip_id ++ " " ++ strTakeRight trip.train_id 7

/-- The three accumulating dictionaries of the single correlation pass. -/
structure TripsAcc where
  trip_updates : List (String × TripUpdateMsg)
  vehicle_updates : List (String × VehicleUpdateMsg)
  alerts : List (String × List AlertMsg)

/-- One iteration of the entity loop of `NYCTFeed.trips`: `HasField` probes
in the order `trip_update`, `vehicle`, `alert`. -/
def tripsStep (acc : TripsAcc) (e : FeedEntity) : TripsAcc :=
  match e.trip_update with
  | some tu =>
    { acc with trip_updates := dictInsert (trip_identifier tu.trip) tu acc.trip_updates }
  | none =>
    match e.vehicle with
    | some v =>
      { acc with vehicle_updates := dictInsert (trip_identifier v.trip) v acc.vehicle_updates }
    | none =>
      match e.alert with
      | some a =>
        { acc with alerts :=
            a.informed_entity.foldl (fun d ie => dictAppend (trip_identifier ie) a d) acc.alerts }
      | none => acc

/-- `NYCTFeed.trips`: correlate the entities, then build one `Trip` per entry
of the progress-update dictionary, attaching the matching position update and
alerts when present. -/
def trips (f : FeedMessage) : List Trip :=
  let acc := f.entity.foldl tripsStep ⟨[], [], []⟩
  acc.trip_updates.map (fun kv =>
    { trip_update := kv.2
      vehicle_update := dictGet kv.1 acc.vehicle_updates
      applicable_alerts := (dictGet kv.1 acc.alerts).getD []
      feed_datetime := f.timestamp })

/-! ## NYCTFeed.filter_trips (feed.py)

Python is dynamically typed, so a criterion argument of `filter_trips` that
may be a string, a list of strings, or anything else is modelled as a tagged
union; `None` (criterion not supplied) is `Option.none` around it. -/

end NYCTFeed

/-- A Python value supplied for a str-or-list criterion: a `str`, a `list`
of `str`, or a value of any other type. -/
inductive PyStrOrList where
  | str (s : String)
  | strList (l : List String)
  | other
  deriving DecidableEq, Repr

/-- The eight independently optional criteria of `filter_trips`. -/
structure Criteria where
  line_id : Option PyStrOrList := none
  travel_direction : Option String := none
  train_assigned : Option Bool := none
  underway : Option Bool := none
  shape_id : Option PyStrOrList := none
  headed_for_stop_id : Option PyStrOrList := none
  updated_after : Option Int := none
  has_delay_alert : Option Bool := none
  deriving DecidableEq, Repr

namespace NYCTFeed

/-- The `line_id` block: `str` and `list` compare `trip.route_id`; any other
type raises `ValueError`. -/
def lineCheck (t : Trip) : Option PyStrOrList → Except PyErr Bool
  | none => Except.ok true
  | some (PyStrOrList.str s) => Except.ok (t.route_id == s)
  | some (PyStrOrList.strList l) => Except.ok (l.contains t.route_id)
  | some PyStrOrList.other => Except.error PyErr.valueError

/-- The `travel_direction` block: compares `trip.direction`, which itself can
raise while parsing the shape id. -/
def dirCheck (t : Trip) : Option String → Except PyErr Bool
  | none => Except.ok true
  | some d =>
    match t.direction with
    | Except.error e => Except.error e
    | Except.ok dd => Except.ok (dd == d)

/-- The `train_assigned` block. -/
def assignedCheck (t : Trip) : Option Bool → Except PyErr Bool
  | none => Except.ok true
  | some b => Except.ok (t.train_assigned == b)

/-- The `underway` block. -/
def underwayCheck (t : Trip) : Option Bool → Except PyErr Bool
  | none => Except.ok true
  | some b => Except.ok (t.underway == b)

/-- The `shape_id` block: the `isinstance` dispatch happens before
`trip.shape_id` is read, so an ill-typed value raises `ValueError` without
touching the trip. -/
def shapeCheck (t : Trip) : Option PyStrOrList → Except PyErr Bool
  | none => Except.ok true
  | some (PyStrOrList.str s) =>
    match t.shape_id with
    | Except.error e => Except.error e
    | Except.ok sh => Except.ok (sh == s)
  | some (PyStrOrList.strList l) =>
    match t.shape_id with
    | Except.error e => Except.error e
    | Except.ok sh => Except.ok (l.contains sh)
  | some PyStrOrList.other => Except.error PyErr.valueError

/-- The `headed_for_stop_id` block: `str` and `list` probe
`trip.headed_to_stop`; the source has no `else` branch, so any other type
falls through and the criterion imposes no constraint. -/
def headedCheck (t : Trip) : Option PyStrOrList → Except PyErr Bool
  | none => Except.ok true
  | some (PyStrOrList.str s) => Except.ok (t.headed_to_stop s)
  | some (PyStrOrList.strList l) => Except.ok (l.any (fun s => t.headed_to_stop s))
  | some PyStrOrList.other => Except.ok true

/-- The `updated_after` block: trips not underway are dropped first; then the
trip passes when `last_position_update` is not before the bound. (When not
underway `last_position_update` is `None`, whose comparison would raise
`TypeError`; the guard makes that branch unreachable.) -/
def updatedCheck (t : Trip) : Option Int → Except PyErr Bool
  | none => Except.ok true
  | some tm =>
    if t.underway then
      match t.last_position_update with
      | none => Except.error PyErr.typeError
      | some ts => Except.ok (!(decide (ts < tm)))
    else Except.ok false

/-- The `has_delay_alert` block. -/
def alertCheck (t : Trip) : Option Bool → Except PyErr Bool
  | none => Except.ok true
  | some b => Except.ok (t.has_delay_alert == b)

/-- The per-trip criterion blocks in source order. -/
def checkList (t : Trip) (c : Criteria) : List (Except PyErr Bool) :=
  [lineCheck t c.line_id, dirCheck t c.travel_direction,
   assignedCheck t c.train_assigned, underwayCheck t c.underway,
   shapeCheck t c.shape_id, headedCheck t c.headed_for_stop_id,
   updatedCheck t c.updated_after, alertCheck t c.has_delay_alert]

/-- Run the blocks in order: a raise aborts, a failed criterion `continue`s
(so later blocks are not evaluated), and a trip passing every block is kept. -/
def runChecks : List (Except PyErr Bool) → Except PyErr Bool
  | [] => Except.ok true
  | Except.error e :: _ => Except.error e
  | Except.ok false :: _ => Except.ok false
  | Except.ok true :: rest => runChecks rest

/-- Whether one loop iteration of `filter_trips` keeps the trip. -/
def tripMatches (t : Trip) (c : Criteria) : Except PyErr Bool :=
  runChecks (checkList t c)

/-- The `filter_trips` loop over a trip collection. -/
def filter_trips_list : List Trip → Criteria → Except PyErr (List Trip)
  | [], _ => Except.ok []
  | t :: ts, c =>
    match tripMatches t c with
    | Except.error e => Except.error e
    | Except.ok true =>
      match filter_trips_list ts c with
      | Except.error e => Except.error e
      | Except.ok r => Except.ok (t :: r)
    | Except.ok false => filter_trips_list ts c

/-- `NYCTFeed.filter_trips`: the loop applied to `self.trips`. -/
def filter_trips (f : FeedMessage) (c : Criteria) : Except PyErr (List Trip) :=
  filter_trips_list (trips f) c

end NYCTFeed

/-- Pointwise merge of two criteria records (used to state the conjunction
law): a field of the merge is the field of whichever record supplies it. -/
def mergeOpt {α : Type} : Option α → Option α → Option α
  | some x, _ => some x
  | none, o => o

def Criteria.merge (c1 c2 : Criteria) : Criteria where
  line_id := mergeOpt c1.line_id c2.line_id
  travel_direction := mergeOpt c1.travel_direction c2.travel_direction
  train_assigned := mergeOpt c1.train_assigned c2.train_assigned
  underway := mergeOpt c1.underway c2.underway
  shape_id := mergeOpt c1.shape_id c2.shape_id
  headed_for_stop_id := mergeOpt c1.headed_for_stop_id c2.headed_for_stop_id
  updated_after := mergeOpt c1.updated_after c2.updated_after
  has_delay_alert := mergeOpt c1.has_delay_alert c2.has_delay_alert

/-- No criterion is supplied by both records. -/
def Criteria.disjointFields (c1 c2 : Criteria) : Prop :=
  (c1.line_id = none ∨ c2.line_id = none)
  ∧ (c1.travel_direction = none ∨ c2.travel_direction = none)
  ∧ (c1.train_assigned = none ∨ c2.train_assigned = none)
  ∧ (c1.underway = none ∨ c2.underway = none)
  ∧ (c1.shape_id = none ∨ c2.shape_id = none)
  ∧ (c1.headed_for_stop_id = none ∨ c2.headed_for_stop_id = none)
  ∧ (c1.updated_after = none ∨ c2.updated_after = none)
  ∧ (c1.has_delay_alert = none ∨ c2.has_delay_alert = none)

/-! ## cpp_parser_wrapper.py: RepeatedField and ProxyMessage

The `nyct_gtfs_cpp` extraction calls are opaque to this layer; they are
modelled as oracle functions carried by the view structures. The ten
protobuf kinds all dispatch to some extraction routine, so the defensive
`func is None` branch is unreachable and not modelled. -/

/-- A lazy repeated-field view: fixed length, per-index cache (`None` =
not yet decoded) and the underlying extraction call. -/
structure RepeatedField (α : Type) where
  len : Nat
  cached_items : List (Option α)
  cppGet : Int → α

/-- `RepeatedField.__getitem__`: an explicit bound check `index >= len`,
then a Python list access into the cache (negative indices included), then
the extraction call on a cache miss. -/
def RepeatedField.getitem {α : Type} (rf : RepeatedField α) (index : Int) : Except PyErr α :=
  if (rf.len : Int) ≤ index then Except.error PyErr.indexError
  else
    match pyListGet rf.cached_items index with
    | none => Except.error PyErr.indexError
    | some (some v) => Except.ok v
    | some none => Except.ok (rf.cppGet index)

/-- The protobuf field kinds dispatched over by the wrapper. -/
inductive CppKind where
  | UINT64 | UINT32
  | BOOL
  | ENUM
  | INT64 | INT32
  | DOUBLE | FLOAT
  | STRING
  | MESSAGE
  deriving DecidableEq, Repr

/-- The value produced by a bracket extension lookup: a repeated view, a
nested message view, or a primitive (abstracted as its raw payload). -/
inductive ExtResult where
  | repeated (extId : Nat)
  | message (raw : Int)
  | value (raw : Int)
  deriving DecidableEq, Repr

/-- A message view: the extension-root flag, the per-extension cache, and
the oracle calls into the C++ layer (keyed by extension number). -/
structure ProxyMessage where
  is_ext : Bool
  cached_exts : List (Nat × ExtResult)
  ext_type : Nat → Option CppKind
  ext_is_repeated : Nat → Bool
  ext_get : Nat → Int

/-- `ProxyMessage.__getitem__`: bracket access is refused on a view not
marked as an extension root; otherwise cache, then type lookup (`value == 0`
is `AttributeError`), then repeated/kind dispatch. -/
def ProxyMessage.getitem (m : ProxyMessage) (extId : Nat) : Except PyErr ExtResult :=
  if m.is_ext = false then Except.error PyErr.valueError
  else
    match dictGet extId m.cached_exts with
    | some v => Except.ok v
    | none =>
      match m.ext_type extId with
      | none => Except.error PyErr.attributeError
      | some k =>
        if m.ext_is_repeated extId then Except.ok (ExtResult.repeated extId)
        else
          match k with
          | CppKind.MESSAGE => Except.ok (ExtResult.message (m.ext_get extId))
          | _ => Except.ok (ExtResult.value (m.ext_get extId))

/-- `ProxyMessage.Extensions`: a new view over the same message handle,
marked as an extension root, with fresh caches. -/
def ProxyMessage.Extensions (m : ProxyMessage) : ProxyMessage :=
  { m with is_ext := true, cached_exts := [] }

/-! ## Concrete fixtures (mirroring the repository's test data) -/

/-- The northbound 1 trip of the A-division fixture. -/
def descN : NyctTripDescriptor :=
  { trip_id := "090300_1..N"
    route_id := "1"
    train_id := "/1 1503  SFT/242"
    is_assigned := true }

def stu107N : StopTimeUpdateMsg :=
  { stop_id := "107N"
    arrival := some 200
    departure := some 210
    nyct_ext := { scheduled_track := some "4", actual_track := none } }

def stu106N : StopTimeUpdateMsg :=
  { stop_id := "106N"
    arrival := some 290
    departure := some 300
    nyct_ext := { scheduled_track := some "4", actual_track := none } }

def tuN : TripUpdateMsg :=
  { trip := descN, stop_time_update := [stu107N, stu106N] }

def vuN : VehicleUpdateMsg :=
  { trip := descN, timestamp := 100, stop_id := "107N", current_stop_sequence := 30 }

/-- An underway trip: position update timestamped 8 s before generation. -/
def tUnderway : Trip :=
  { trip_update := tuN
    vehicle_update := some vuN
    applicable_alerts := []
    feed_datetime := 108 }

def descS : NyctTripDescriptor :=
  { trip_id := "095650_1..S03R"
    route_id := "1"
    train_id := "01 1556+ 242/SFT"
    is_assigned := true }

/-- An assigned trip with no position update. -/
def tAssigned : Trip :=
  { trip_update := { trip := descS, stop_time_update := [] }
    vehicle_update := none
    applicable_alerts := []
    feed_datetime := 108 }

/-- The bad-shape fixture: a 2 trip whose shape id is the literal "0". -/
def descShape0 : NyctTripDescriptor :=
  { trip_id := "072350_0"
    route_id := "2"
    train_id := "02 0723+ FLA/241"
    is_assigned := true }

def tShape0 : Trip :=
  { trip_update := { trip := descShape0, stop_time_update := [] }
    vehicle_update := none
    applicable_alerts := []
    feed_datetime := 0 }

/-- A feed with two progress updates carrying the same composite trip key,
plus a position update and an alert. -/
def feedDup : FeedMessage :=
  { timestamp := 108
    entity :=
      [ { trip_update := some tuN, vehicle := none, alert := none },
        { trip_update := some tuN, vehicle := none, alert := none },
        { trip_update := none, vehicle := some vuN, alert := none },
        { trip_update := none, vehicle := none, alert := some { informed_entity := [descS] } } ] }

/-- A repeated-field view of length 1 with a fresh cache over an extraction
call that yields 42 everywhere. -/
def rfNeg : RepeatedField Int :=
  { len := 1
    cached_items := [none]
    cppGet := fun _ => 42 }

/-- An ordinary (non-extension-root) message view. -/
def pmPlain : ProxyMessage :=
  { is_ext := false
    cached_exts := []
    ext_type := fun _ => some CppKind.STRING
    ext_is_repeated := fun _ => false
    ext_get := fun _ => 0 }

def stuTracksDiffer : StopTimeUpdateMsg :=
  { stop_id := "123S"
    arrival := none
    departure := none
    nyct_ext := { scheduled_track := some "1", actual_track := some "2" } }

def stuTracksAbsent : StopTimeUpdateMsg :=
  { stop_id := "123S"
    arrival := none
    departure := none
    nyct_ext := { scheduled_track := none, actual_track := some "2" } }

/-! ## Proof support -/

/-- The keys of an association list, in order. -/
def keyList {κ α : Type} (d : List (κ × α)) : List κ :=
  d.map Prod.fst

/-- The progress-update dictionary evolution on its own: the first component
of `tripsStep` only changes for progress-update entities. -/
def tuStep (d : List (String × TripUpdateMsg)) (e : FeedEntity) :
    List (String × TripUpdateMsg) :=
  match e.trip_update with
  | some tu => dictInsert (NYCTFeed.trip_identifier tu.trip) tu d
  | none => d

/-- Element-wise interleaving of two check lists: each slot comes from one
side while the other side's slot is the vacuous `ok true`. -/
inductive MergedChecks :
    List (Except PyErr Bool) → List (Except PyErr Bool) → List (Except PyErr Bool) → Prop where
  | nil : MergedChecks [] [] []
  | left (c : Except PyErr Bool) {l1 l2 l : List (Except PyErr Bool)} :
      MergedChecks l1 l2 l → MergedChecks (c :: l1) (Except.ok true :: l2) (c :: l)
  | right (c : Except PyErr Bool) {l1 l2 l : List (Except PyErr Bool)} :
      MergedChecks l1 l2 l → MergedChecks (Except.ok true :: l1) (c :: l2) (c :: l)

/-! ## Helper lemmas -/

lemma underway_iff_aux (t : Trip) :
    t.underway = true ↔
      ∃ v, t.vehicle_update = some v ∧ v.timestamp ≤ t.feed_datetime + 60 := by
  cases hv : t.vehicle_update <;> simp [Trip.underway, hv]

lemma mergeOpt_none_left {α : Type} (o : Option α) : mergeOpt none o = o := rfl

lemma mergeOpt_none_right {α : Type} (o : Option α) : mergeOpt o none = o := by
  cases o <;> rfl

lemma pyListGet_eq_none_iff {α : Type} (l : List α) (i : Int) :
    pyListGet l i = none ↔ (i < -(l.length : Int) ∨ (l.length : Int) ≤ i) := by
  unfold pyListGet
  by_cases h0 : 0 ≤ i
  · rw [if_pos h0, List.get?_eq_none]
    constructor <;> intro h <;> omega
  · rw [if_neg h0]
    by_cases hneg : (l.length : Int) + i < 0
    · rw [if_pos hneg]
      constructor <;> intro h
      · left; omega
      · rfl
    · rw [if_neg hneg, List.get?_eq_none]
      constructor <;> intro h <;> omega

/-! ## Claim C2 -/

/-- Claim C2: for every underway trip, the value of `last_position_update`
is the position-update timestamp corrected by the one-hour rule of
`parse_timestamp` (subtract 60 minutes when the raw instant is more than
30 minutes past the feed generation time, otherwise unchanged). Underway
trips are within one minute of the generation time, so the correction
branch never fires and the raw instant is returned. -/
theorem C2_last_position_update_corrected (t : Trip) (v : VehicleUpdateMsg)
    (hu : t.underway = true) (hv : t.vehicle_update = some v) :
    t.last_position_update = some (parse_timestamp v.timestamp (some t.feed_datetime)) := by
  have hle : v.timestamp ≤ t.feed_datetime + 60 := by
    rcases (underway_iff_aux t).mp hu with ⟨v2, hv2, hle2⟩
    rw [hv] at hv2
    cases hv2
    exact hle2
  have hnot : ¬ (v.timestamp > t.feed_datetime + 1800) := by omega
  simp [Trip.last_position_update, parse_timestamp, hu, hv, hnot]

/-- Witness for C2 at the underway fixture trip. -/
theorem C2_witness :
    tUnderway.underway = true ∧
      tUnderway.last_position_update =
        some (parse_timestamp vuN.timestamp (some tUnderway.feed_datetime)) :=
  ⟨rfl, C2_last_position_update_corrected tUnderway vuN rfl rfl⟩

/-! ## Claim C3 -/

/-- Claim C3: a trip is underway iff a position update is present and its
timestamp is not more than one minute after the feed's generation time; a
position record timestamped further in the future does not make the trip
underway. -/
theorem C3_underway_iff (t : Trip) :
    t.underway = true ↔
      ∃ v, t.vehicle_update = some v ∧ v.timestamp ≤ t.feed_datetime + 60 :=
  underway_iff_aux t

/-! ## Claim C4 -/

/-- Claim C4 (code bug): on the fixture trip whose shape id is the literal
string "0" (no ".." and no "." separator), `Trip.direction` raises
`IndexError` instead of returning the absent value the specification and the
repository's own tests (`TestBadTripShape`) require. -/
theorem C4_direction_shape0_raises :
    tShape0.shape_id = Except.ok "0" ∧
      tShape0.direction = Except.error PyErr.indexError :=
  ⟨rfl, rfl⟩

/-! ## Claim C5 -/

/-- Claim C5 (code bug): an ill-typed `headed_for_stop_id` criterion (neither
`str` nor `list`) does not raise; the criterion is silently ignored and the
unfiltered trips come back, although the repository's own test
(`test_feed_filtering`, `headed_for_stop_id=137123`) expects a raise. The
`line_id` criterion, by contrast, does raise on an ill-typed value. -/
theorem C5_headed_ill_typed_ignored :
    NYCTFeed.filter_trips_list [tAssigned]
        { headed_for_stop_id := some PyStrOrList.other } = Except.ok [tAssigned]
    ∧ NYCTFeed.filter_trips_list [tAssigned]
        { line_id := some PyStrOrList.other } = Except.error PyErr.valueError :=
  ⟨rfl, rfl⟩

/-! ## Claim C8 -/

/-- Claim C8: `unexpected_track_arrival` is false whenever either track field
is absent, and when both are present it is true exactly when the scheduled
and actual tracks differ. -/
theorem C8_unexpected_track_arrival (s : StopTimeUpdateMsg) :
    ((StopTimeUpdate.scheduled_track s = none ∨ StopTimeUpdate.actual_track s = none) →
      StopTimeUpdate.unexpected_track_arrival s = false)
    ∧ (∀ a b, StopTimeUpdate.scheduled_track s = some a →
        StopTimeUpdate.actual_track s = some b →
        (StopTimeUpdate.unexpected_track_arrival s = true ↔ a ≠ b)) := by
  constructor
  · intro h
    unfold StopTimeUpdate.unexpected_track_arrival
    cases hs : StopTimeUpdate.scheduled_track s with
    | none => cases StopTimeUpdate.actual_track s <;> rfl
    | some a =>
      cases ha : StopTimeUpdate.actual_track s with
      | none => rfl
      | some b =>
        exfalso
        rcases h with h | h
        · rw [hs] at h; cases h
        · rw [ha] at h; cases h
  · intro a b ha hb
    unfold StopTimeUpdate.unexpected_track_arrival
    rw [ha, hb]
    simp

/-- Witness for C8: both track fields differing gives true; an absent
scheduled track gives false. -/
theorem C8_witness :
    StopTimeUpdate.unexpected_track_arrival stuTracksAbsent = false
    ∧ StopTimeUpdate.unexpected_track_arrival stuTracksDiffer = true :=
  ⟨(C8_unexpected_track_arrival stuTracksAbsent).1 (Or.inl rfl),
   ((C8_unexpected_track_arrival stuTracksDiffer).2 "1" "2" rfl rfl).mpr (by decide)⟩

/-! ## Claim C9 -/

/-- Claim C9 is refuted at a negative index: on a length-1 repeated view, the
access at index -1 is not an `IndexError`; the bound check only tests
`index >= len`, and the Python cache access accepts indices in `[-len, 0)`,
so the element is fetched and returned. -/
theorem C9_counterexample :
    rfNeg.getitem (-1) = Except.ok 42 ∧
      rfNeg.getitem (-1) ≠ Except.error PyErr.indexError := by
  constructor
  · rfl
  · intro h
    rw [show rfNeg.getitem (-1) = Except.ok 42 from rfl] at h
    cases h

/-- Claim C9, amended: indexed access raises `IndexError` exactly when
`index ≥ length` or `index < -length`; every index in `[-length, length)`
(negative ones mirroring Python list indexing into the cache) returns an
element without error. -/
theorem C9_getitem_bounds (rf : RepeatedField Int) (i : Int)
    (hlen : rf.cached_items.length = rf.len) :
    (rf.getitem i = Except.error PyErr.indexError ↔
      (i < -(rf.len : Int) ∨ (rf.len : Int) ≤ i))
    ∧ ((∃ v, rf.getitem i = Except.ok v) ↔
      (-(rf.len : Int) ≤ i ∧ i < (rf.len : Int))) := by
  have hnone := pyListGet_eq_none_iff rf.cached_items i
  rw [hlen] at hnone
  unfold RepeatedField.getitem
  by_cases hge : (rf.len : Int) ≤ i
  · rw [if_pos hge]
    constructor
    · simp only [true_iff]
      exact Or.inr hge
    · constructor
      · rintro ⟨v, hv⟩; cases hv
      · intro h; omega
  · rw [if_neg hge]
    cases hg : pyListGet rf.cached_items i with
    | none =>
      have hb : i < -(rf.len : Int) := by
        rcases hnone.mp hg with h | h
        · exact h
        · exact absurd h hge
      constructor
      · constructor
        · intro _; exact Or.inl hb
        · intro _; rfl
      · constructor
        · rintro ⟨v, hv⟩; cases hv
        · intro h; omega
    | some o =>
      have hb : ¬ (i < -(rf.len : Int) ∨ (rf.len : Int) ≤ i) := by
        intro hbnds
        rw [hnone.mpr hbnds] at hg
        cases hg
      cases o with
      | none =>
        constructor
        · constructor
          · intro h; cases h
          · intro h; exact absurd h hb
        · constructor
          · intro _; omega
          · intro _; exact ⟨rf.cppGet i, rfl⟩
      | some v =>
        constructor
        · constructor
          · intro h; cases h
          · intro h; exact absurd h hb
        · constructor
          · intro _; omega
          · intro _; exact ⟨v, rfl⟩

/-- Witness for the amended C9 bounds at the fixture view: index 5 raises,
index 0 returns an element. -/
theorem C9_witness :
    rfNeg.getitem 5 = Except.error PyErr.indexError ∧
      ∃ v, rfNeg.getitem 0 = Except.ok v :=
  ⟨(C9_getitem_bounds rfNeg 5 rfl).1.mpr (Or.inr (by decide)),
   (C9_getitem_bounds rfNeg 0 rfl).2.mpr (by constructor <;> decide)⟩

/-! ## Claim C10 -/

/-- Claim C10: bracket-style extension lookup fails with the
invalid-operation error (`ValueError`) on every view not marked as an
extension root; a lookup can succeed only on a view so marked, and the
`Extensions` accessor is what produces such a view (on which the
invalid-operation error can no longer arise). -/
theorem C10_extension_root_gate (m : ProxyMessage) (e : Nat) :
    (m.is_ext = false → m.getitem e = Except.error PyErr.valueError)
    ∧ (∀ v, m.getitem e = Except.ok v → m.is_ext = true)
    ∧ m.Extensions.is_ext = true
    ∧ (∀ e2, m.Extensions.getitem e2 ≠ Except.error PyErr.valueError) := by
  refine ⟨?_, ?_, rfl, ?_⟩
  · intro h
    unfold ProxyMessage.getitem
    rw [if_pos h]
  · intro v hok
    cases hx : m.is_ext
    · unfold ProxyMessage.getitem at hok
      rw [if_pos hx] at hok
      cases hok
    · rfl
  · intro e2 hcontra
    unfold ProxyMessage.getitem at hcontra
    simp only [ProxyMessage.Extensions] at hcontra
    rw [if_neg (by simp)] at hcontra
    rw [show dictGet e2 ([] : List (Nat × ExtResult)) = none from rfl] at hcontra
    cases ht : m.ext_type e2 with
    | none =>
      rw [ht] at hcontra
      simp at hcontra
    | some k =>
      rw [ht] at hcontra
      by_cases hr : m.ext_is_repeated e2 = true <;> cases k <;> simp [hr] at hcontra

/-- Witness for C10 at the plain (non-extension-root) fixture view. -/
theorem C10_witness :
    pmPlain.getitem 14 = Except.error PyErr.valueError ∧
      pmPlain.Extensions.getitem 14 ≠ Except.error PyErr.valueError :=
  ⟨(C10_extension_root_gate pmPlain 14).1 rfl,
   (C10_extension_root_gate pmPlain 14).2.2.2 14⟩

/-! ## Claim C1: dictionary lemmas and the correlation pass -/

lemma keyList_cons {κ α : Type} (k0 : κ) (v0 : α) (rest : List (κ × α)) :
    keyList ((k0, v0) :: rest) = k0 :: keyList rest := rfl

lemma keyList_dictInsert {κ α : Type} [DecidableEq κ] (k : κ) (v : α)
    (d : List (κ × α)) :
    keyList (dictInsert k v d) =
      if k ∈ keyList d then keyList d else keyList d ++ [k] := by
  induction d with
  | nil => simp [dictInsert, keyList]
  | cons kv rest ih =>
    obtain ⟨k0, v0⟩ := kv
    by_cases hk : k0 = k
    · subst hk
      simp [dictInsert, keyList]
    · rw [show dictInsert k v ((k0, v0) :: rest) = (k0, v0) :: dictInsert k v rest from by
        simp [dictInsert, hk]]
      rw [keyList_cons, keyList_cons, ih]
      have hne : ¬ k = k0 := fun h => hk h.symm
      by_cases hm : k ∈ keyList rest
      · rw [if_pos hm, if_pos (List.mem_cons_of_mem _ hm)]
      · rw [if_neg hm, if_neg (by simp [List.mem_cons, hne, hm])]
        simp

lemma nodup_keyList_dictInsert {κ α : Type} [DecidableEq κ] (k : κ) (v : α)
    {d : List (κ × α)} (h : (keyList d).Nodup) :
    (keyList (dictInsert k v d)).Nodup := by
  rw [keyList_dictInsert]
  by_cases hm : k ∈ keyList d
  · rwa [if_pos hm]
  · rw [if_neg hm, List.nodup_append_comm]
    simpa using ⟨fun hx => hm hx, h⟩

lemma toFinset_keyList_dictInsert {κ α : Type} [DecidableEq κ] (k : κ) (v : α)
    (d : List (κ × α)) :
    (keyList (dictInsert k v d)).toFinset = insert k (keyList d).toFinset := by
  rw [keyList_dictInsert]
  by_cases hm : k ∈ keyList d
  · rw [if_pos hm]
    exact (Finset.insert_eq_self.mpr (List.mem_toFinset.mpr hm)).symm
  · rw [if_neg hm]
    ext x
    simp [or_comm]

lemma length_keyList {κ α : Type} (d : List (κ × α)) :
    d.length = (keyList d).length := by
  simp [keyList]

/-- The first component of the correlation pass only changes on
progress-update entities. -/
lemma foldl_tripsStep_trip_updates (es : List FeedEntity) :
    ∀ acc : NYCTFeed.TripsAcc,
      (es.foldl NYCTFeed.tripsStep acc).trip_updates =
        es.foldl tuStep acc.trip_updates := by
  induction es with
  | nil => intro acc; rfl
  | cons e es ih =>
    intro acc
    rw [List.foldl_cons, List.foldl_cons, ih]
    have h : (NYCTFeed.tripsStep acc e).trip_updates = tuStep acc.trip_updates e := by
      cases htu : e.trip_update <;> cases hv : e.vehicle <;> cases ha : e.alert <;>
        simp [NYCTFeed.tripsStep, tuStep, htu, hv, ha]
    rw [h]

/-- Folding the progress-update dictionary counts distinct composite keys. -/
lemma foldl_tuStep_length (es : List FeedEntity) :
    ∀ d : List (String × TripUpdateMsg), (keyList d).Nodup →
      (es.foldl tuStep d).length =
        (keyList d ++
          (es.filterMap FeedEntity.trip_update).map
            (fun tu => NYCTFeed.trip_identifier tu.trip)).toFinset.card := by
  induction es with
  | nil =>
    intro d hd
    rw [List.foldl_nil, List.filterMap_nil, List.map_nil, List.append_nil,
      length_keyList, List.toFinset_card_of_nodup hd]
  | cons e es ih =>
    intro d hd
    rw [List.foldl_cons]
    cases htu : e.trip_update with
    | none =>
      rw [List.filterMap_cons_none htu]
      have hstep : tuStep d e = d := by simp [tuStep, htu]
      rw [hstep]
      exact ih d hd
    | some tu =>
      rw [List.filterMap_cons_some htu, List.map_cons]
      have hstep : tuStep d e = dictInsert (NYCTFeed.trip_identifier tu.trip) tu d := by
        simp [tuStep, htu]
      rw [hstep]
      rw [ih _ (nodup_keyList_dictInsert _ _ hd)]
      congr 1
      ext x
      simp only [toFinset_keyList_dictInsert, List.toFinset_append, List.toFinset_cons,
        Finset.mem_union, Finset.mem_insert, List.mem_toFinset]
      tauto

/-- Claim C1, amended: the number of trips equals the number of **distinct**
composite trip identifiers among the progress-update entities (duplicate
keys collapse by in-place overwrite); position-update and alert entities
never contribute a trip. -/
theorem C1_trips_length_distinct_keys (f : FeedMessage) :
    (NYCTFeed.trips f).length =
      ((f.entity.filterMap FeedEntity.trip_update).map
        (fun tu => NYCTFeed.trip_identifier tu.trip)).toFinset.card := by
  show (List.map _ (f.entity.foldl NYCTFeed.tripsStep ⟨[], [], []⟩).trip_updates).length = _
  rw [List.length_map, foldl_tripsStep_trip_updates]
  have h := foldl_tuStep_length f.entity [] (by simp [keyList])
  simpa [keyList] using h

/-- Claim C1 as stated is refuted on a feed with two progress updates that
share the composite key: only one trip is produced for two progress-update
entities. -/
theorem C1_counterexample :
    (NYCTFeed.trips feedDup).length ≠
      (feedDup.entity.filter (fun e => e.trip_update.isSome)).length := by
  decide

/-! ## Filter-engine lemmas (claims C6 and C7) -/

namespace NYCTFeed

lemma lineCheck_none (t : Trip) : lineCheck t none = Except.ok true := rfl

lemma dirCheck_none (t : Trip) : dirCheck t none = Except.ok true := rfl

lemma assignedCheck_none (t : Trip) : assignedCheck t none = Except.ok true := rfl

lemma underwayCheck_none (t : Trip) : underwayCheck t none = Except.ok true := rfl

lemma shapeCheck_none (t : Trip) : shapeCheck t none = Except.ok true := rfl

lemma headedCheck_none (t : Trip) : headedCheck t none = Except.ok true := rfl

lemma updatedCheck_none (t : Trip) : updatedCheck t none = Except.ok true := rfl

lemma alertCheck_none (t : Trip) : alertCheck t none = Except.ok true := rfl

lemma runChecks_ok_true_iff (l : List (Except PyErr Bool)) :
    runChecks l = Except.ok true ↔ ∀ x ∈ l, x = Except.ok true := by
  induction l with
  | nil => simp [runChecks]
  | cons c cs ih =>
    cases c with
    | error e => simp [runChecks]
    | ok b =>
      cases b with
      | false => simp [runChecks]
      | true => simp [runChecks, ih]

lemma runChecks_merged {l1 l2 l : List (Except PyErr Bool)}
    (h : MergedChecks l1 l2 l) :
    ∀ {b1 b2 : Bool}, runChecks l1 = Except.ok b1 → runChecks l2 = Except.ok b2 →
      runChecks l = Except.ok (b1 && b2) := by
  induction h with
  | nil =>
    intro b1 b2 h1 h2
    rw [runChecks] at h1 h2
    cases h1
    cases h2
    rfl
  | left c h ih =>
    intro b1 b2 h1 h2
    cases c with
    | error e => rw [runChecks] at h1; cases h1
    | ok b =>
      cases b with
      | false =>
        rw [runChecks] at h1
        cases h1
        rw [runChecks]
        rfl
      | true =>
        rw [runChecks] at h1 h2
        rw [runChecks]
        exact ih h1 h2
  | right c h ih =>
    intro b1 b2 h1 h2
    cases c with
    | error e => rw [runChecks] at h2; cases h2
    | ok b =>
      cases b with
      | false =>
        rw [runChecks] at h2
        cases h2
        rw [runChecks, Bool.and_false]
      | true =>
        rw [runChecks] at h1 h2
        rw [runChecks]
        exact ih h1 h2

/-- One interleaving step: the slot comes from whichever side supplies the
criterion, the other side's slot being the vacuous `ok true`. -/
lemma MergedChecks.step {α : Type} (chk : Option α → Except PyErr Bool)
    (hn : chk none = Except.ok true) (o1 o2 : Option α) (h : o1 = none ∨ o2 = none)
    {l1 l2 l : List (Except PyErr Bool)} (htail : MergedChecks l1 l2 l) :
    MergedChecks (chk o1 :: l1) (chk o2 :: l2) (chk (mergeOpt o1 o2) :: l) := by
  rcases h with h | h
  · rw [h, mergeOpt_none_left, hn]
    exact MergedChecks.right _ htail
  · rw [h, mergeOpt_none_right, hn]
    exact MergedChecks.left _ htail

lemma checkList_merged (t : Trip) (c1 c2 : Criteria)
    (h : Criteria.disjointFields c1 c2) :
    MergedChecks (checkList t c1) (checkList t c2) (checkList t (c1.merge c2)) := by
  obtain ⟨h1, h2, h3, h4, h5, h6, h7, h8⟩ := h
  exact MergedChecks.step (lineCheck t) rfl _ _ h1
    (MergedChecks.step (dirCheck t) rfl _ _ h2
      (MergedChecks.step (assignedCheck t) rfl _ _ h3
        (MergedChecks.step (underwayCheck t) rfl _ _ h4
          (MergedChecks.step (shapeCheck t) rfl _ _ h5
            (MergedChecks.step (headedCheck t) rfl _ _ h6
              (MergedChecks.step (updatedCheck t) rfl _ _ h7
                (MergedChecks.step (alertCheck t) rfl _ _ h8 MergedChecks.nil)))))))

lemma tripMatches_merged (t : Trip) (c1 c2 : Criteria)
    (h : Criteria.disjointFields c1 c2) {b1 b2 : Bool}
    (h1 : tripMatches t c1 = Except.ok b1) (h2 : tripMatches t c2 = Except.ok b2) :
    tripMatches t (c1.merge c2) = Except.ok (b1 && b2) :=
  runChecks_merged (checkList_merged t c1 c2 h) h1 h2

lemma filter_trips_list_mem {ts : List Trip} {c : Criteria} {res : List Trip}
    (h : filter_trips_list ts c = Except.ok res) (t : Trip) :
    t ∈ res ↔ t ∈ ts ∧ tripMatches t c = Except.ok true := by
  induction ts generalizing res with
  | nil =>
    rw [filter_trips_list] at h
    cases h
    simp
  | cons t0 ts ih =>
    rw [filter_trips_list] at h
    cases hm : tripMatches t0 c with
    | error e => rw [hm] at h; cases h
    | ok b =>
      rw [hm] at h
      cases b with
      | false =>
        rw [ih h]
        constructor
        · rintro ⟨hts, hmt⟩
          exact ⟨List.mem_cons_of_mem _ hts, hmt⟩
        · rintro ⟨hts, hmt⟩
          rcases List.mem_cons.mp hts with rfl | hts
          · rw [hmt] at hm; cases hm
          · exact ⟨hts, hmt⟩
      | true =>
        cases hr : filter_trips_list ts c with
        | error e => rw [hr] at h; cases h
        | ok r =>
          rw [hr] at h
          cases h
          rw [List.mem_cons, ih hr]
          constructor
          · rintro (rfl | ⟨hts, hmt⟩)
            · exact ⟨List.mem_cons_self _ _, hm⟩
            · exact ⟨List.mem_cons_of_mem _ hts, hmt⟩
          · rintro ⟨hts, hmt⟩
            rcases List.mem_cons.mp hts with rfl | hts
            · exact Or.inl rfl
            · exact Or.inr ⟨hts, hmt⟩

lemma filter_trips_list_matches_ok {ts : List Trip} {c : Criteria} {res : List Trip}
    (h : filter_trips_list ts c = Except.ok res) :
    ∀ t ∈ ts, ∃ b, tripMatches t c = Except.ok b := by
  induction ts generalizing res with
  | nil => intro t ht; cases ht
  | cons t0 ts ih =>
    rw [filter_trips_list] at h
    cases hm : tripMatches t0 c with
    | error e => rw [hm] at h; cases h
    | ok b =>
      rw [hm] at h
      intro t ht
      rcases List.mem_cons.mp ht with rfl | ht
      · exact ⟨b, hm⟩
      · cases b with
        | false => exact ih h t ht
        | true =>
          cases hr : filter_trips_list ts c with
          | error e => rw [hr] at h; cases h
          | ok r => exact ih hr t ht

lemma filter_trips_list_total {ts : List Trip} {c : Criteria}
    (h : ∀ t ∈ ts, ∃ b, tripMatches t c = Except.ok b) :
    ∃ res, filter_trips_list ts c = Except.ok res := by
  induction ts with
  | nil => exact ⟨[], rfl⟩
  | cons t0 ts ih =>
    rcases h t0 (List.mem_cons_self _ _) with ⟨b, hb⟩
    rcases ih (fun t ht => h t (List.mem_cons_of_mem _ ht)) with ⟨r, hr⟩
    cases b with
    | false =>
      refine ⟨r, ?_⟩
      rw [filter_trips_list, hb, hr]
    | true =>
      refine ⟨t0 :: r, ?_⟩
      rw [filter_trips_list, hb, hr]

lemma tripMatches_empty (t : Trip) : tripMatches t {} = Except.ok true := rfl

lemma tripMatches_line_str (t : Trip) (x : String) :
    tripMatches t { line_id := some (PyStrOrList.str x) } = Except.ok (t.route_id == x) := by
  cases h : t.route_id == x <;>
    simp [tripMatches, checkList, runChecks, lineCheck, h]

lemma tripMatches_line_list (t : Trip) (L : List String) :
    tripMatches t { line_id := some (PyStrOrList.strList L) } =
      Except.ok (L.contains t.route_id) := by
  by_cases h : t.route_id ∈ L <;>
    simp [tripMatches, checkList, runChecks, lineCheck, h]

lemma tripMatches_headed_str (t : Trip) (x : String) :
    tripMatches t { headed_for_stop_id := some (PyStrOrList.str x) } =
      Except.ok (t.headed_to_stop x) := by
  cases h : t.headed_to_stop x <;>
    simp [tripMatches, checkList, runChecks, headedCheck, h]

lemma tripMatches_headed_list (t : Trip) (L : List String) :
    tripMatches t { headed_for_stop_id := some (PyStrOrList.strList L) } =
      Except.ok (L.any (fun s => t.headed_to_stop s)) := by
  cases h : L.any (fun s => t.headed_to_stop s) <;>
    simp [tripMatches, checkList, runChecks, headedCheck, h]

lemma tripMatches_shape_str_err (t : Trip) (x : String) {e : PyErr}
    (hs : t.shape_id = Except.error e) :
    tripMatches t { shape_id := some (PyStrOrList.str x) } = Except.error e := by
  simp [tripMatches, checkList, runChecks, shapeCheck, hs]

lemma tripMatches_shape_str_ok (t : Trip) (x : String) {sh : String}
    (hs : t.shape_id = Except.ok sh) :
    tripMatches t { shape_id := some (PyStrOrList.str x) } = Except.ok (sh == x) := by
  cases h : sh == x <;>
    simp [tripMatches, checkList, runChecks, shapeCheck, hs, h]

lemma tripMatches_shape_list_err (t : Trip) (L : List String) {e : PyErr}
    (hs : t.shape_id = Except.error e) :
    tripMatches t { shape_id := some (PyStrOrList.strList L) } = Except.error e := by
  simp [tripMatches, checkList, runChecks, shapeCheck, hs]

lemma tripMatches_shape_list_ok (t : Trip) (L : List String) {sh : String}
    (hs : t.shape_id = Except.ok sh) :
    tripMatches t { shape_id := some (PyStrOrList.strList L) } =
      Except.ok (L.contains sh) := by
  by_cases h : sh ∈ L <;>
    simp [tripMatches, checkList, runChecks, shapeCheck, hs, h]

lemma filter_trips_list_empty_criteria (ts : List Trip) :
    filter_trips_list ts {} = Except.ok ts := by
  induction ts with
  | nil => rfl
  | cons t0 ts ih =>
    rw [filter_trips_list, tripMatches_empty, ih]

end NYCTFeed

/-! ## Claim C6 -/

/-- Claim C6: an absent criterion imposes no constraint; filtering by a
set-valued criterion (`line_id`, `shape_id`, or `headed_for_stop_id` given a
list) contains exactly the trips contained in the single-value filtering of
some member of the set; and filtering by two disjoint criteria records
supplied simultaneously contains exactly the trips contained in both
single-criteria filterings. -/
theorem C6_filter_algebra :
    (∀ ts : List Trip, NYCTFeed.filter_trips_list ts {} = Except.ok ts)
    ∧ (∀ (ts : List Trip) (L : List String) (res : List Trip),
        NYCTFeed.filter_trips_list ts
            { line_id := some (PyStrOrList.strList L) } = Except.ok res →
        ∀ t, t ∈ res ↔ ∃ x ∈ L, ∃ rx,
          NYCTFeed.filter_trips_list ts
              { line_id := some (PyStrOrList.str x) } = Except.ok rx ∧ t ∈ rx)
    ∧ (∀ (ts : List Trip) (L : List String) (res : List Trip),
        NYCTFeed.filter_trips_list ts
            { shape_id := some (PyStrOrList.strList L) } = Except.ok res →
        ∀ t, t ∈ res ↔ ∃ x ∈ L, ∃ rx,
          NYCTFeed.filter_trips_list ts
              { shape_id := some (PyStrOrList.str x) } = Except.ok rx ∧ t ∈ rx)
    ∧ (∀ (ts : List Trip) (L : List String) (res : List Trip),
        NYCTFeed.filter_trips_list ts
            { headed_for_stop_id := some (PyStrOrList.strList L) } = Except.ok res →
        ∀ t, t ∈ res ↔ ∃ x ∈ L, ∃ rx,
          NYCTFeed.filter_trips_list ts
              { headed_for_stop_id := some (PyStrOrList.str x) } = Except.ok rx ∧ t ∈ rx)
    ∧ (∀ (ts : List Trip) (c1 c2 : Criteria) (res r1 r2 : List Trip),
        Criteria.disjointFields c1 c2 →
        NYCTFeed.filter_trips_list ts (c1.merge c2) = Except.ok res →
        NYCTFeed.filter_trips_list ts c1 = Except.ok r1 →
        NYCTFeed.filter_trips_list ts c2 = Except.ok r2 →
        ∀ t, t ∈ res ↔ (t ∈ r1 ∧ t ∈ r2)) := by
  refine ⟨NYCTFeed.filter_trips_list_empty_criteria, ?_, ?_, ?_, ?_⟩
  · -- union law for the line_id criterion
    intro ts L res h t
    rw [NYCTFeed.filter_trips_list_mem h t]
    constructor
    · rintro ⟨hts, hm⟩
      rw [NYCTFeed.tripMatches_line_list] at hm
      have hmem : t.route_id ∈ L := by simpa using Except.ok.inj hm
      obtain ⟨rx, hrx⟩ := NYCTFeed.filter_trips_list_total
        (c := { line_id := some (PyStrOrList.str t.route_id) })
        (fun t2 _ => ⟨_, NYCTFeed.tripMatches_line_str t2 t.route_id⟩)
      refine ⟨t.route_id, hmem, rx, hrx, ?_⟩
      refine (NYCTFeed.filter_trips_list_mem hrx t).mpr ⟨hts, ?_⟩
      rw [NYCTFeed.tripMatches_line_str]
      simp
    · rintro ⟨x, hxL, rx, hrx, htin⟩
      obtain ⟨hts, hm⟩ := (NYCTFeed.filter_trips_list_mem hrx t).mp htin
      rw [NYCTFeed.tripMatches_line_str] at hm
      have hx : t.route_id = x := by simpa using Except.ok.inj hm
      refine ⟨hts, ?_⟩
      rw [NYCTFeed.tripMatches_line_list]
      simp [hx, hxL]
  · -- union law for the shape_id criterion
    intro ts L res h t
    have hall := NYCTFeed.filter_trips_list_matches_ok h
    have hsh : ∀ t2 ∈ ts, ∃ sh, t2.shape_id = Except.ok sh := by
      intro t2 ht2
      rcases hall t2 ht2 with ⟨b, hb⟩
      cases hx : t2.shape_id with
      | error e => rw [NYCTFeed.tripMatches_shape_list_err _ _ hx] at hb; cases hb
      | ok sh => exact ⟨sh, rfl⟩
    rw [NYCTFeed.filter_trips_list_mem h t]
    constructor
    · rintro ⟨hts, hm⟩
      rcases hsh t hts with ⟨sh, hshk⟩
      rw [NYCTFeed.tripMatches_shape_list_ok _ _ hshk] at hm
      have hmem : sh ∈ L := by simpa using Except.ok.inj hm
      obtain ⟨rx, hrx⟩ := NYCTFeed.filter_trips_list_total
        (c := { shape_id := some (PyStrOrList.str sh) })
        (fun t2 ht2 => by
          rcases hsh t2 ht2 with ⟨sh2, hsh2⟩
          exact ⟨_, NYCTFeed.tripMatches_shape_str_ok t2 sh hsh2⟩)
      refine ⟨sh, hmem, rx, hrx, ?_⟩
      refine (NYCTFeed.filter_trips_list_mem hrx t).mpr ⟨hts, ?_⟩
      rw [NYCTFeed.tripMatches_shape_str_ok t sh hshk]
      simp
    · rintro ⟨x, hxL, rx, hrx, htin⟩
      obtain ⟨hts, hm⟩ := (NYCTFeed.filter_trips_list_mem hrx t).mp htin
      rcases hsh t hts with ⟨sh, hshk⟩
      rw [NYCTFeed.tripMatches_shape_str_ok t x hshk] at hm
      have hx : sh = x := by simpa using Except.ok.inj hm
      refine ⟨hts, ?_⟩
      rw [NYCTFeed.tripMatches_shape_list_ok _ _ hshk]
      simp [hx, hxL]
  · -- union law for the headed_for_stop_id criterion
    intro ts L res h t
    rw [NYCTFeed.filter_trips_list_mem h t]
    constructor
    · rintro ⟨hts, hm⟩
      rw [NYCTFeed.tripMatches_headed_list] at hm
      have hany : L.any (fun s => t.headed_to_stop s) = true := Except.ok.inj hm
      rcases List.any_eq_true.mp hany with ⟨x, hxL, hhx⟩
      obtain ⟨rx, hrx⟩ := NYCTFeed.filter_trips_list_total
        (c := { headed_for_stop_id := some (PyStrOrList.str x) })
        (fun t2 _ => ⟨_, NYCTFeed.tripMatches_headed_str t2 x⟩)
      refine ⟨x, hxL, rx, hrx, ?_⟩
      refine (NYCTFeed.filter_trips_list_mem hrx t).mpr ⟨hts, ?_⟩
      rw [NYCTFeed.tripMatches_headed_str, hhx]
    · rintro ⟨x, hxL, rx, hrx, htin⟩
      obtain ⟨hts, hm⟩ := (NYCTFeed.filter_trips_list_mem hrx t).mp htin
      rw [NYCTFeed.tripMatches_headed_str] at hm
      refine ⟨hts, ?_⟩
      rw [NYCTFeed.tripMatches_headed_list]
      have hx : t.headed_to_stop x = true := Except.ok.inj hm
      rw [List.any_eq_true.mpr ⟨x, hxL, hx⟩]
  · -- conjunction law for two disjoint criteria records
    intro ts c1 c2 res r1 r2 hd hres h1 h2 t
    rw [NYCTFeed.filter_trips_list_mem hres t, NYCTFeed.filter_trips_list_mem h1 t,
      NYCTFeed.filter_trips_list_mem h2 t]
    constructor
    · rintro ⟨hts, hm⟩
      rcases NYCTFeed.filter_trips_list_matches_ok h1 t hts with ⟨b1, hb1⟩
      rcases NYCTFeed.filter_trips_list_matches_ok h2 t hts with ⟨b2, hb2⟩
      have hmm := NYCTFeed.tripMatches_merged t c1 c2 hd hb1 hb2
      rw [hm] at hmm
      have hband : true = (b1 && b2) := Except.ok.inj hmm
      have hb1t : b1 = true := by
        cases b1
        · rw [Bool.false_and] at hband; cases hband
        · rfl
      have hb2t : b2 = true := by
        cases b2
        · rw [Bool.and_false] at hband; cases hband
        · rfl
      rw [hb1t] at hb1
      rw [hb2t] at hb2
      exact ⟨⟨hts, hb1⟩, ⟨hts, hb2⟩⟩
    · rintro ⟨⟨hts, hm1⟩, ⟨hts2, hm2⟩⟩
      have hmm := NYCTFeed.tripMatches_merged t c1 c2 hd hm1 hm2
      exact ⟨hts, hmm⟩

/-- Witness for C6: the conjunction law applied at a concrete trip
collection and two concrete disjoint criteria. -/
theorem C6_witness :
    tAssigned ∈ ([tAssigned] : List Trip) ∧ tAssigned ∈ ([tAssigned] : List Trip) :=
  (C6_filter_algebra.2.2.2.2 [tAssigned]
      { underway := some false } { has_delay_alert := some false }
      [tAssigned] [tAssigned] [tAssigned]
      ⟨Or.inl rfl, Or.inl rfl, Or.inl rfl, Or.inr rfl,
       Or.inl rfl, Or.inl rfl, Or.inl rfl, Or.inl rfl⟩
      rfl rfl rfl tAssigned).mp (List.mem_singleton.mpr rfl)

/-! ## Claim C7 -/

/-- Claim C7: when the `updated_after` criterion is supplied, every trip of
the filter result is underway (so trips with no, or a future-dated, position
update are always excluded) and its `last_position_update` is not before
the given time. -/
theorem C7_updated_after_requires_underway
    (ts : List Trip) (c : Criteria) (tm : Int) (res : List Trip) (t : Trip)
    (hc : c.updated_after = some tm)
    (h : NYCTFeed.filter_trips_list ts c = Except.ok res) (ht : t ∈ res) :
    t.underway = true ∧ ∃ pts, t.last_position_update = some pts ∧ ¬ pts < tm := by
  have hm := ((NYCTFeed.filter_trips_list_mem h t).mp ht).2
  have hall := (NYCTFeed.runChecks_ok_true_iff (NYCTFeed.checkList t c)).mp hm
  have hupd : NYCTFeed.updatedCheck t c.updated_after = Except.ok true :=
    hall _ (by simp [NYCTFeed.checkList])
  rw [hc, NYCTFeed.updatedCheck] at hupd
  by_cases hu : t.underway = true
  · rw [if_pos hu] at hupd
    cases hl : t.last_position_update with
    | none => rw [hl] at hupd; cases hupd
    | some pts =>
      rw [hl] at hupd
      refine ⟨hu, pts, rfl, ?_⟩
      have := Except.ok.inj hupd
      simpa using this
  · rw [if_neg hu] at hupd
    cases hupd

/-- Witness for C7 at the underway fixture: it survives an `updated_after`
filter bounded below its position timestamp. -/
theorem C7_witness :
    tUnderway.underway = true ∧
      ∃ pts, tUnderway.last_position_update = some pts ∧ ¬ pts < 50 :=
  C7_updated_after_requires_underway [tUnderway] { updated_after := some 50 } 50
    [tUnderway] tUnderway rfl rfl (List.mem_singleton.mpr rfl)

end NyctGtfs
